import Mathlib

/-!
# Verification of the continuous contract merger

A shallow embedding, in Lean 4, of the core of the `continuous_contract_merger`
repository:

* `scid_to_qdb.py` — the QuestDB SCID tailer (`get_scid_np`), its ingestion
  tick (`main`), the checkpoint file handling and the supervisor loop
  (`__main__`);
* `scid_to_pg.py` — the PostgreSQL variant of the tailer and its checkpoint
  handling in `main`;
* `lib/compute_front_contract_questdb.py` — the front-contract marker
  (`deduplicate_data` and the day/symbol loop in `main`).

Machine integers of the source are modelled as `Nat`/`Int` (file offsets and
sizes are non-negative byte counts; volumes are database `INT`s).  Fallible
steps are modelled with explicit error values.  Filesystem and database
effects are modelled as explicit operation lists and explicit state.
-/

namespace ContractMerger

/-! ## The SCID tailer (`get_scid_np` in scid_to_qdb.py and scid_to_pg.py)

The numpy dtype has fields `<u8, <f4 ×4, <u4 ×4`, hence `itemsize = 40`.
The SCID header is assumed to occupy the first 56 bytes.
-/

/-- `sciddtype.itemsize`: one raw SCID record is 40 bytes. -/
def record_size : Nat := 40

/-- The SCID header occupies bytes `[0, 56)` and is skipped, never decoded. -/
def header_size : Nat := 56

/-- Result of one call of `get_scid_np`: the byte offset at which decoding
started, the number of whole records decoded (`np.fromfile` reads only whole
items), and the file position after the read (`file.tell()`). -/
structure ScidRead where
  read_start : Nat
  num_records : Nat
  new_position : Nat
deriving Repr, DecidableEq

/-- `get_scid_np(scidFile, offset)` of scid_to_qdb.py lines 72–101 (identical
in scid_to_pg.py lines 65–94), as a function of the file size and the offset:

* if `offset >= file_size`, the offset is replaced by
  `file_size - (file_size % record_size)`;
* otherwise, if `offset < 56`, it is clamped up to 56 (skipping the header;
  seeking past the end of file is permitted and reads nothing);
* the remaining bytes are decoded as whole 40-byte records, a trailing
  fragment being left unread. -/
def get_scid_np (file_size offset : Nat) : ScidRead :=
  let offset1 :=
    if offset ≥ file_size then file_size - file_size % record_size
    else if offset < header_size then header_size
    else offset
  let n := (file_size - offset1) / record_size
  ⟨offset1, n, offset1 + n * record_size⟩

/-- The byte offsets of the records a `get_scid_np` read hands to the
pipeline: record `i` of the slice starts at `read_start + 40·i`. -/
def ScidRead.records (r : ScidRead) : List Nat :=
  (List.range r.num_records).map (fun i => r.read_start + record_size * i)

/-! ## The checkpoint map

The checkpoint file is a JSON object keyed by `symbol ++ symbol_period`; each
value holds `last_position` and `initial_load_done`.  A Python `dict` is
modelled as an association list: assignment replaces the value of an existing
key in place and appends a fresh key at the end. -/

/-- One value of the checkpoint object. -/
structure CheckpointEntry where
  last_position : Nat
  initial_load_done : Bool
deriving Repr, DecidableEq

/-- The checkpoint object: keys in insertion order. -/
abbrev Checkpoint := List (String × CheckpointEntry)

/-- `checkpoint_data.get(key, {})` followed by the field reads. -/
def lookupEntry (cp : Checkpoint) (k : String) : Option CheckpointEntry :=
  match cp with
  | [] => none
  | (k', e) :: rest => if k' = k then some e else lookupEntry rest k

/-- `checkpoint_data[key] = {...}`: replace in place, or append. -/
def setEntry (cp : Checkpoint) (k : String) (e : CheckpointEntry) : Checkpoint :=
  match cp with
  | [] => [(k, e)]
  | (k', e') :: rest => if k' = k then (k, e) :: rest else (k', e') :: setEntry rest k e

/-- `table_data.get("last_position", 0)`: the stored offset of a stream,
defaulting to 0 when the stream has no checkpoint entry. -/
def last_position_of (cp : Checkpoint) (k : String) : Nat :=
  ((lookupEntry cp k).map CheckpointEntry.last_position).getD 0

theorem lookupEntry_setEntry_self (cp : Checkpoint) (k : String) (e : CheckpointEntry) :
    lookupEntry (setEntry cp k e) k = some e := by
  induction cp with
  | nil => simp [setEntry, lookupEntry]
  | cons p rest ih =>
    obtain ⟨k', e'⟩ := p
    by_cases h : k' = k
    · simp [setEntry, lookupEntry, h]
    · simp [setEntry, lookupEntry, h, ih]

theorem lookupEntry_setEntry_ne (cp : Checkpoint) (k k' : String) (e : CheckpointEntry)
    (h : k' ≠ k) : lookupEntry (setEntry cp k e) k' = lookupEntry cp k' := by
  have h2 : ¬ k = k' := fun hh => h hh.symm
  induction cp with
  | nil => simp [setEntry, lookupEntry, h2]
  | cons p rest ih =>
    obtain ⟨k0, e0⟩ := p
    by_cases h0 : k0 = k
    · subst h0
      simp [setEntry, lookupEntry, h2]
    · by_cases h1 : k0 = k'
      · simp [setEntry, lookupEntry, h0, h1, h]
      · simp [setEntry, lookupEntry, h0, h1, ih]

theorem setEntry_setEntry (cp : Checkpoint) (k : String) (e₁ e₂ : CheckpointEntry) :
    setEntry (setEntry cp k e₁) k e₂ = setEntry cp k e₂ := by
  induction cp with
  | nil => simp [setEntry]
  | cons p rest ih =>
    obtain ⟨k', e'⟩ := p
    by_cases h : k' = k
    · simp [setEntry, h]
    · simp [setEntry, h, ih]

theorem last_position_setEntry_self (cp : Checkpoint) (k : String) (e : CheckpointEntry) :
    last_position_of (setEntry cp k e) k = e.last_position := by
  simp [last_position_of, lookupEntry_setEntry_self]

/-! ## One ingestion tick of scid_to_qdb.py (`main`, lines 246–327)

`main` loads the checkpoint entry of the stream, calls `get_scid_np`, and only
when `new_position > last_position` runs the parallel pipeline
(`load_data_to_questdb`) and rewrites the checkpoint file.  If any worker
fails, `load_data_to_questdb` raises `WorkerFailureException` (lines
224–236), which propagates out of `main` before the checkpoint write at lines
319–320 is reached.  Whether the workers all succeed is an environment fact
(network, database), carried here as the boolean `workers_ok`. -/

/-- The observable outcome of one `main(table_name, scid_file)` call. -/
structure TickOut where
  /-- `WorkerFailureException` propagated out of the tick. -/
  worker_failure : Bool
  /-- The checkpoint object written to the checkpoint file, if the write at
  lines 319–320 was reached. -/
  written : Option Checkpoint
  /-- Byte offsets of the records handed to the ingestion pipeline. -/
  ingested : List Nat
deriving Repr, DecidableEq

/-- One tick of scid_to_qdb.py for the stream keyed `key` over a source file
of `file_size` bytes, starting from checkpoint object `cp`. -/
def tick_qdb (file_size : Nat) (key : String) (cp : Checkpoint) (workers_ok : Bool) :
    TickOut :=
  let last_position := last_position_of cp key
  let r := get_scid_np file_size last_position
  if r.new_position > last_position then
    if workers_ok then
      { worker_failure := false
        written := some (setEntry cp key ⟨r.new_position, true⟩)
        ingested := r.records }
    else
      { worker_failure := true, written := none, ingested := r.records }
  else
    { worker_failure := false, written := none, ingested := [] }

/-- The checkpoint file content after a tick: unchanged unless rewritten. -/
def stored_after (cp : Checkpoint) (out : TickOut) : Checkpoint :=
  out.written.getD cp

/-! ### Arithmetic facts about `get_scid_np` -/

/-- In the `offset ≥ file_size` branch the read is empty and the returned
position is `file_size` rounded down to a multiple of 40. -/
theorem get_scid_np_of_ge (file_size offset : Nat) (h : offset ≥ file_size) :
    get_scid_np file_size offset =
      ⟨file_size - file_size % record_size, 0, file_size - file_size % record_size⟩ := by
  have hle : file_size % record_size ≤ file_size := Nat.mod_le _ _
  have hsub : file_size - (file_size - file_size % record_size) = file_size % record_size :=
    Nat.sub_sub_self hle
  have hlt : file_size % record_size < record_size :=
    Nat.mod_lt _ (by decide)
  simp only [get_scid_np, if_pos h, hsub, Nat.div_eq_of_lt hlt, Nat.zero_mul, Nat.add_zero]

/-- In the `offset ≥ file_size` branch the returned position is at most
`file_size`, hence at most the requested offset. -/
theorem get_scid_np_new_position_le_of_ge (file_size offset : Nat) (h : offset ≥ file_size) :
    (get_scid_np file_size offset).new_position ≤ offset := by
  rw [get_scid_np_of_ge file_size offset h]
  exact le_trans (Nat.sub_le _ _) h

/-- For an offset below the file size, the tailer clamps to at least the
header, reads whole records from there, and reports the position after them. -/
theorem get_scid_np_of_lt (file_size offset : Nat) (h : offset < file_size) :
    get_scid_np file_size offset =
      (let offset1 := if offset < header_size then header_size else offset
       ⟨offset1, (file_size - offset1) / record_size,
        offset1 + (file_size - offset1) / record_size * record_size⟩) := by
  simp only [get_scid_np, if_neg (Nat.not_le_of_lt h)]

/-- Below-EOF reads: the reported position never moves backwards, lands at or
beyond the header, and sits a whole number of records past the start of the
read (hence past the header when the start was the header or was already
record-aligned relative to it). -/
theorem get_scid_np_pos_spec (file_size offset : Nat) (h : offset < file_size) :
    offset ≤ (get_scid_np file_size offset).new_position ∧
    header_size ≤ (get_scid_np file_size offset).new_position ∧
    ((get_scid_np file_size offset).new_position - header_size) % record_size
      = (if offset < header_size then 0 else (offset - header_size) % record_size) := by
  rw [get_scid_np_of_lt file_size offset h]
  by_cases h56 : offset < header_size
  · simp only [h56, if_pos]
    refine ⟨le_trans (Nat.le_of_lt h56) (Nat.le_add_right _ _), Nat.le_add_right _ _, ?_⟩
    simp [Nat.add_sub_cancel_left, Nat.mul_mod_left]
  · simp only [h56, if_neg, if_false]
    have h56' : header_size ≤ offset := Nat.not_lt.mp h56
    refine ⟨Nat.le_add_right _ _, le_trans h56' (Nat.le_add_right _ _), ?_⟩
    rw [Nat.sub_add_comm h56', Nat.add_mul_mod_self_right]

/-- The invariant the checkpoint protocol maintains on a stream's stored
offset: either no tick has ever advanced it (0), or it is the 56-byte header
plus a whole number of 40-byte records. -/
abbrev aligned_position (lp : Nat) : Prop :=
  lp = 0 ∨ (header_size ≤ lp ∧ (lp - header_size) % record_size = 0)

/-- C1: For every stream and every successful tick of the ingestion loop, the
checkpoint offset persisted for that stream never decreases, and the new
offset minus the 56-byte header is an exact multiple of the 40-byte record
size — also when the file size is not `56 + k·40` (a partial trailing record
is left for a later tick).  Stated as preservation of `aligned_position`,
which holds of every stream reachable by the loop (streams start at 0 and
every persisted offset re-establishes the invariant). -/
theorem checkpoint_advance_monotone_aligned (file_size : Nat) (key : String)
    (cp cp' : Checkpoint) (h : aligned_position (last_position_of cp key))
    (hw : (tick_qdb file_size key cp true).written = some cp') :
    last_position_of cp key ≤ last_position_of cp' key ∧
    header_size ≤ last_position_of cp' key ∧
    (last_position_of cp' key - header_size) % record_size = 0 ∧
    aligned_position (last_position_of cp' key) := by
  by_cases hge : file_size ≤ last_position_of cp key
  · have hle := get_scid_np_new_position_le_of_ge file_size (last_position_of cp key) hge
    have hcond : ¬ (last_position_of cp key
        < (get_scid_np file_size (last_position_of cp key)).new_position) :=
      Nat.not_lt.mpr hle
    simp [tick_qdb, hcond] at hw
  · have hlt : last_position_of cp key < file_size := Nat.not_le.mp hge
    obtain ⟨hmono, hhead, hmod⟩ :=
      get_scid_np_pos_spec file_size (last_position_of cp key) hlt
    by_cases hcond : last_position_of cp key
        < (get_scid_np file_size (last_position_of cp key)).new_position
    · have hw' : cp' = setEntry cp key
          ⟨(get_scid_np file_size (last_position_of cp key)).new_position, true⟩ := by
        simp [tick_qdb, hcond] at hw
        exact hw.symm
      subst hw'
      rw [last_position_setEntry_self]
      have hmod0 : ((get_scid_np file_size (last_position_of cp key)).new_position
          - header_size) % record_size = 0 := by
        rw [hmod]
        by_cases h56 : last_position_of cp key < header_size
        · simp [h56]
        · simp only [h56, if_neg, if_false]
          rcases h with h0 | ⟨hge56, haligned⟩
          · exact absurd (h0 ▸ h56) (by simp [header_size])
          · exact haligned
      exact ⟨hmono, hhead, hmod0, Or.inr ⟨hhead, hmod0⟩⟩
    · simp [tick_qdb, hcond] at hw

/-- C1 witness: a cold start over a file of `56 + 2·40 = 136` bytes persists
offset 136, which is header-aligned and above the initial offset 0. -/
theorem checkpoint_advance_monotone_aligned_witness :
    aligned_position (last_position_of [] "ESU5") ∧
    (tick_qdb 136 "ESU5" [] true).written = some [("ESU5", ⟨136, true⟩)] ∧
    (last_position_of [] "ESU5" ≤ last_position_of [("ESU5", ⟨136, true⟩)] "ESU5" ∧
     header_size ≤ last_position_of [("ESU5", ⟨136, true⟩)] "ESU5" ∧
     (last_position_of [("ESU5", ⟨136, true⟩)] "ESU5" - header_size) % record_size = 0 ∧
     aligned_position (last_position_of [("ESU5", ⟨136, true⟩)] "ESU5")) :=
  ⟨Or.inl rfl, by decide,
   checkpoint_advance_monotone_aligned 136 "ESU5" [] [("ESU5", ⟨136, true⟩)]
     (Or.inl rfl) (by decide)⟩

/-- C2 counterexample: a 40-byte file polled from offset 40 (`last_position ≥
file_size`) yields new position `40 - 40 % 40 = 40`, which is below 56 — the
code applies no 56-byte minimum in this branch, contrary to the claim. -/
theorem tailer_past_eof_counterexample :
    (40 : Nat) ≥ 40 ∧ get_scid_np 40 40 = ⟨40, 0, 40⟩ ∧
    (get_scid_np 40 40).new_position < header_size := by
  decide

/-- C2 (amended): whenever `last_position ≥ file_size`, the tailer returns an
empty record slice and new position exactly `file_size - (file_size mod 40)`;
there is no adjustment for the 56-byte header and no 56 minimum. -/
theorem tailer_past_eof_rounds_down (file_size offset : Nat) (h : offset ≥ file_size) :
    (get_scid_np file_size offset).num_records = 0 ∧
    (get_scid_np file_size offset).records = [] ∧
    (get_scid_np file_size offset).new_position = file_size - file_size % record_size := by
  rw [get_scid_np_of_ge file_size offset h]
  exact ⟨rfl, rfl, rfl⟩

/-- C2 witness: polling a 100-byte file from offset 100 returns no records
and position `100 - 100 % 40 = 80`. -/
theorem tailer_past_eof_rounds_down_witness :
    (100 : Nat) ≥ 100 ∧
    ((get_scid_np 100 100).num_records = 0 ∧
     (get_scid_np 100 100).records = [] ∧
     (get_scid_np 100 100).new_position = 100 - 100 % record_size) :=
  ⟨by decide, tailer_past_eof_rounds_down 100 100 (by decide)⟩

/-- C3: if any ingestion worker fails during a tick that had new data, the
tick as a whole fails (`WorkerFailureException` propagates) and the
checkpoint file is not rewritten: the stream keeps its prior
`last_position`. -/
theorem worker_failure_fails_tick_no_advance (file_size : Nat) (key : String)
    (cp : Checkpoint)
    (h : last_position_of cp key
        < (get_scid_np file_size (last_position_of cp key)).new_position) :
    (tick_qdb file_size key cp false).worker_failure = true ∧
    (tick_qdb file_size key cp false).written = none ∧
    stored_after cp (tick_qdb file_size key cp false) = cp ∧
    last_position_of (stored_after cp (tick_qdb file_size key cp false)) key
      = last_position_of cp key := by
  simp [tick_qdb, stored_after, h]

/-- C3 witness: a 96-byte file with one fresh record, a failing worker pool:
the tick fails and the empty checkpoint stays empty. -/
theorem worker_failure_fails_tick_no_advance_witness :
    last_position_of [] "ESU5" < (get_scid_np 96 (last_position_of [] "ESU5")).new_position ∧
    ((tick_qdb 96 "ESU5" [] false).worker_failure = true ∧
     (tick_qdb 96 "ESU5" [] false).written = none ∧
     stored_after [] (tick_qdb 96 "ESU5" [] false) = [] ∧
     last_position_of (stored_after [] (tick_qdb 96 "ESU5" [] false)) "ESU5"
       = last_position_of [] "ESU5") :=
  ⟨by decide, worker_failure_fails_tick_no_advance 96 "ESU5" [] (by decide)⟩

/-- C8 counterexample: a 30-byte source file (shorter than the 56-byte header)
with stored `last_position = 0` is *not* a no-op tick: no records are
ingested, yet the checkpoint entry for the stream is created with
`last_position = 56` and `initial_load_done = true`. -/
theorem short_file_counterexample :
    (30 : Nat) < header_size ∧
    (tick_qdb 30 "ESU5" [] true).ingested = [] ∧
    (tick_qdb 30 "ESU5" [] true).written = some [("ESU5", ⟨56, true⟩)] := by
  decide

/-- C8 (amended): with `last_position = 0`, a truly empty file (size 0) makes
the tick a no-op (nothing ingested, checkpoint untouched); but a nonempty
file shorter than the 56-byte header ingests no records while still creating
or overwriting the stream's checkpoint entry with offset 56. -/
theorem short_file_tick (file_size : Nat) (key : String) (cp : Checkpoint)
    (h0 : last_position_of cp key = 0) (hfs : file_size < header_size) :
    (tick_qdb file_size key cp true).ingested = [] ∧
    (tick_qdb file_size key cp true).written =
      (if file_size = 0 then none else some (setEntry cp key ⟨header_size, true⟩)) := by
  by_cases hz : file_size = 0
  · subst hz
    have hr : get_scid_np 0 0 = ⟨0, 0, 0⟩ := by decide
    simp [tick_qdb, h0, hr]
  · have hpos : 0 < file_size := Nat.pos_of_ne_zero hz
    have hr : get_scid_np file_size 0 = ⟨header_size, 0, header_size⟩ := by
      rw [get_scid_np_of_lt file_size 0 hpos]
      have hsub : file_size - header_size = 0 := Nat.sub_eq_zero_of_le (Nat.le_of_lt hfs)
      have h056 : (0 : Nat) < header_size := by decide
      simp [h056, hsub]
    have h056 : (0 : Nat) < header_size := by decide
    simp [tick_qdb, h0, hr, hz, h056, ScidRead.records]

/-- C8 witness: a 30-byte file from offset 0 ingests nothing and writes the
entry `{last_position: 56, initial_load_done: true}`. -/
theorem short_file_tick_witness :
    last_position_of [] "ESU5" = 0 ∧ (30 : Nat) < header_size ∧
    ((tick_qdb 30 "ESU5" [] true).ingested = [] ∧
     (tick_qdb 30 "ESU5" [] true).written =
       (if (30 : Nat) = 0 then none else some (setEntry [] "ESU5" ⟨header_size, true⟩))) :=
  ⟨rfl, by decide, short_file_tick 30 "ESU5" [] rfl (by decide)⟩

/-- C10: two qdb ticks over the same file and the same stored `last_position`
that differ only in the stored `initial_load_done` flag are indistinguishable
— same records handed to the pipeline, same failure status, same checkpoint
write — and whenever a checkpoint is written, the stream's flag is
unconditionally `true`, regardless of how many records were committed. -/
theorem initial_load_flag_noninterference (file_size : Nat) (key : String)
    (cp : Checkpoint) (lp : Nat) (b₁ b₂ : Bool) (workers_ok : Bool) :
    tick_qdb file_size key (setEntry cp key ⟨lp, b₁⟩) workers_ok
      = tick_qdb file_size key (setEntry cp key ⟨lp, b₂⟩) workers_ok ∧
    ∀ cp', (tick_qdb file_size key (setEntry cp key ⟨lp, b₁⟩) workers_ok).written = some cp' →
      lookupEntry cp' key = some ⟨(get_scid_np file_size lp).new_position, true⟩ := by
  constructor
  · simp only [tick_qdb, last_position_setEntry_self, setEntry_setEntry]
  · intro cp' hw
    simp only [tick_qdb, last_position_setEntry_self, setEntry_setEntry, gt_iff_lt] at hw
    by_cases hcond : lp < (get_scid_np file_size lp).new_position
    · cases workers_ok
      · simp [hcond] at hw
      · simp only [hcond, if_true, if_pos] at hw
        have hw' : setEntry cp key ⟨(get_scid_np file_size lp).new_position, true⟩ = cp' := by
          simpa using hw
        subst hw'
        exact lookupEntry_setEntry_self cp key _
    · simp [hcond] at hw

/-! ## The checkpoint save (scid_to_qdb.py lines 319–320)

`main` saves with `with open(checkpoint_file, "w") as f: json.dump(...)`: a
single direct open-for-write (truncating) of the final path.  Saving is
modelled as the list of filesystem operations performed, together with the
states the checkpoint path can be observed in if the process dies at any
point of the sequence (a plain write is interruptible; `rename` is atomic). -/

/-- A filesystem operation of a save routine. -/
inductive FsOp where
  /-- Open `path` for writing and dump the document into it. -/
  | write (path : String) (doc : Checkpoint)
  /-- Atomically rename `src` over `dst`. -/
  | rename (src dst : String)
deriving Repr, DecidableEq

/-- `checkpoint_file = Path("checkpoint_qdb.json")`. -/
def checkpoint_qdb_path : String := "checkpoint_qdb.json"

/-- The operations scid_to_qdb.py performs to save the checkpoint object:
one direct write of the final file, nothing else. -/
def save_checkpoint_ops (cp : Checkpoint) : List FsOp :=
  [.write checkpoint_qdb_path cp]

/-- Modelled from the spec: the save routine the spec describes ("write temp
file, then rename"), for comparison with `save_checkpoint_ops`. -/
def atomic_save_ops (tmp : String) (cp : Checkpoint) : List FsOp :=
  [.write tmp cp, .rename tmp checkpoint_qdb_path]

/-- What a path holds at an observation point during a save. -/
inductive FileContent where
  /-- The content from before the save started. -/
  | old
  /-- The path was opened for writing (truncated) but the dump of `doc` had
  not finished: a half-written document. -/
  | halfWritten (doc : Checkpoint)
  /-- The completed document. -/
  | full (doc : Checkpoint)
deriving Repr, DecidableEq

/-- Effect of one completed operation on the filesystem. -/
def apply_fs_op (fs : String → FileContent) : FsOp → (String → FileContent)
  | .write p doc => fun q => if q = p then .full doc else fs q
  | .rename s d => fun q => if q = d then fs s else if q = s then .old else fs q

/-- Filesystem states observable if the process dies in the middle of one
operation.  A write caught mid-dump leaves a half-written file; a rename is
atomic and has no intermediate state. -/
def mid_crash_states (fs : String → FileContent) : FsOp → List (String → FileContent)
  | .write p doc => [fun q => if q = p then .halfWritten doc else fs q]
  | .rename _ _ => []

/-- Every filesystem state observable if the process dies at any point of an
operation sequence (before, inside, or between operations), including the
state after the sequence completes. -/
def crash_states : List FsOp → (String → FileContent) → List (String → FileContent)
  | [], fs => [fs]
  | op :: rest, fs => fs :: (mid_crash_states fs op ++ crash_states rest (apply_fs_op fs op))

/-- C6 counterexample: the checkpoint save is one direct write of the final
path — not a temp-file write followed by a rename — and dying mid-dump leaves
the checkpoint file half-written, which the claim says can never happen. -/
theorem save_not_atomic_counterexample :
    save_checkpoint_ops [("ESU5", ⟨136, true⟩)]
      = [FsOp.write checkpoint_qdb_path [("ESU5", ⟨136, true⟩)]] ∧
    (crash_states (save_checkpoint_ops [("ESU5", ⟨136, true⟩)]) (fun _ => FileContent.old)).map
        (fun st => st checkpoint_qdb_path)
      = [FileContent.old, FileContent.halfWritten [("ESU5", ⟨136, true⟩)],
         FileContent.full [("ESU5", ⟨136, true⟩)]] := by
  constructor
  · rfl
  · simp [save_checkpoint_ops, crash_states, mid_crash_states, apply_fs_op]

/-- C6 (amended): saving the checkpoint map is a direct in-place rewrite —
`open(checkpoint_file, "w")` followed by `json.dump` — with no temporary file
and no rename, so a process death during the dump can leave a half-written
checkpoint document (and the old content is already truncated away). -/
theorem save_checkpoint_direct_write (cp : Checkpoint) :
    save_checkpoint_ops cp = [FsOp.write checkpoint_qdb_path cp] ∧
    (crash_states (save_checkpoint_ops cp) (fun _ => FileContent.old)).map
        (fun st => st checkpoint_qdb_path)
      = [FileContent.old, FileContent.halfWritten cp, FileContent.full cp] := by
  refine ⟨rfl, ?_⟩
  simp [save_checkpoint_ops, crash_states, mid_crash_states, apply_fs_op]

/-- For contrast: the save the spec describes (temp write, then rename) never
exposes a half-written document at the checkpoint path. -/
theorem atomic_save_no_half_written (tmp : String) (cp : Checkpoint)
    (h : ¬ checkpoint_qdb_path = tmp) :
    (crash_states (atomic_save_ops tmp cp) (fun _ => FileContent.old)).map
        (fun st => st checkpoint_qdb_path)
      = [FileContent.old, FileContent.old, FileContent.old, FileContent.full cp] := by
  simp [atomic_save_ops, crash_states, mid_crash_states, apply_fs_op, h]

/-- Witness for `atomic_save_no_half_written` at a concrete temp path. -/
theorem atomic_save_no_half_written_witness :
    ¬ checkpoint_qdb_path = "checkpoint_qdb.json.tmp" ∧
    (crash_states (atomic_save_ops "checkpoint_qdb.json.tmp" [])
        (fun _ => FileContent.old)).map (fun st => st checkpoint_qdb_path)
      = [FileContent.old, FileContent.old, FileContent.old, FileContent.full []] :=
  ⟨by decide, atomic_save_no_half_written "checkpoint_qdb.json.tmp" [] (by decide)⟩

/-! ## The supervisor loop (scid_to_qdb.py lines 337–353)

`while True: try: main(...); sleep(...)` with three handlers:
`KeyboardInterrupt` → `break`; `WorkerFailureException` → `break`; any other
exception → sleep 60 and continue.  Both `break`s fall off the end of the
script, which then terminates normally — with exit status 0. -/

/-- What one tick of the loop body raises, if anything. -/
inductive TickOutcome where
  | success
  | workerFailure
  | keyboardInterrupt
  | otherError
deriving Repr, DecidableEq

/-- The supervisor loop run over a finite schedule of tick outcomes: `some
code` is the process exit status when the loop terminates within the
schedule, `none` means it is still looping. -/
def supervisor_exit : List TickOutcome → Option Nat
  | [] => none
  | .success :: rest => supervisor_exit rest
  | .workerFailure :: _ => some 0
  | .keyboardInterrupt :: _ => some 0
  | .otherError :: rest => supervisor_exit rest

/-- C7 counterexample: a tick raising `WorkerFailureException` makes the
supervisor `break` out of the loop and the script end normally, so the
process exit code is 0 — not the non-zero code the claim requires. -/
theorem supervisor_worker_failure_exit_code_counterexample :
    supervisor_exit [.success, .workerFailure] = some 0 := by
  rfl

/-- C7 (amended): when a tick raises the worker-failure exception, the
supervisor loop terminates the process — no further ticks are attempted —
but with exit code zero, not a non-zero code. -/
theorem supervisor_worker_failure_exits_zero (pre rest : List TickOutcome)
    (hpre : pre.all (fun o => o == .success || o == .otherError) = true) :
    supervisor_exit (pre ++ .workerFailure :: rest) = some 0 := by
  induction pre with
  | nil => rfl
  | cons o os ih =>
    simp only [List.all_cons, Bool.and_eq_true] at hpre
    obtain ⟨h1, h2⟩ := hpre
    cases o
    · exact ih h2
    · simp at h1
    · simp at h1
    · exact ih h2

/-- C7 witness: after one successful tick and one unexpected-error tick, a
worker failure ends the loop with exit code 0. -/
theorem supervisor_worker_failure_exits_zero_witness :
    [TickOutcome.success, TickOutcome.otherError].all
        (fun o => o == .success || o == .otherError) = true ∧
    supervisor_exit ([TickOutcome.success, TickOutcome.otherError]
        ++ .workerFailure :: [.success]) = some 0 :=
  ⟨by decide,
   supervisor_worker_failure_exits_zero [.success, .otherError] [.success] (by decide)⟩

/-! ## The PostgreSQL variant (scid_to_pg.py `main`, lines 175–239)

`last_position` and `initial_load_done` are initialised unconditionally, but
the local `checkpoint_data` is assigned only inside the
`if checkpoint_file.exists():` block (valid JSON) or its
`except json.JSONDecodeError` handler (corrupt file, assigned `{}`).  On a
cold start — no checkpoint file — the name is never bound, and the write step
`checkpoint_data[f'{symbol}{symbol_period}'] = {...}` at line 228 raises
`NameError`. -/

/-- The state of `checkpoint.json` when the pg variant starts a tick. -/
inductive CheckpointFileState where
  | missing
  | corrupt
  | valid (cp : Checkpoint)
deriving Repr, DecidableEq

/-- The binding of the local `checkpoint_data` after lines 198–214: `none`
models the name being unbound. -/
def pg_checkpoint_data : CheckpointFileState → Option Checkpoint
  | .missing => none
  | .corrupt => some []
  | .valid cp => some cp

/-- `last_position` after lines 198–214. -/
def pg_last_position : CheckpointFileState → String → Nat
  | .missing, _ => 0
  | .corrupt, _ => 0
  | .valid cp, k => last_position_of cp k

/-- Outcome of one pg tick: a `NameError` escaping `main`, or normal
completion with the checkpoint write performed, if any. -/
inductive PgTickResult where
  | nameError
  | done (written : Option Checkpoint)
deriving Repr, DecidableEq

/-- One tick of scid_to_pg.py `main` for stream `key` over a file of
`file_size` bytes. -/
def tick_pg (st : CheckpointFileState) (file_size : Nat) (key : String) : PgTickResult :=
  let lp := pg_last_position st key
  let r := get_scid_np file_size lp
  if r.new_position > lp then
    match pg_checkpoint_data st with
    | none => .nameError
    | some cd => .done (some (setEntry cd key ⟨r.new_position, true⟩))
  else .done none

/-- C9: on a cold start of the pg variant (no checkpoint file) with the
tailer returning a new position above 0, the checkpoint-write step raises
`NameError`, so a cold-start run can never create the first checkpoint for a
stream. -/
theorem pg_cold_start_name_error (file_size : Nat) (key : String)
    (h : 0 < (get_scid_np file_size 0).new_position) :
    tick_pg .missing file_size key = .nameError := by
  simp [tick_pg, pg_last_position, pg_checkpoint_data, h]

/-- C9 witness: any nonempty file, e.g. a single byte, already trips the
cold-start `NameError`. -/
theorem pg_cold_start_name_error_witness :
    0 < (get_scid_np 1 0).new_position ∧ tick_pg .missing 1 "ESZ4" = .nameError :=
  ⟨by decide, pg_cold_start_name_error 1 "ESZ4" (by decide)⟩

/-! ## The front-contract marker (lib/compute_front_contract_questdb.py)

`deduplicate_data(cursor, symbol, date_str)` runs

    SELECT symbol_period, sum(volume) AS total_volume FROM trades
    WHERE symbol = %s AND to_str(time, ...) = %s
    GROUP BY symbol_period ORDER BY total_volume DESC

and, when at least two groups exist, sets `front_contract = FALSE` for all
rows of the (symbol, day) slice and then `TRUE` for the rows whose
`symbol_period` is `results[0][0]`.  The table is modelled as a list of rows;
`GROUP BY` groups in first-appearance order and `ORDER BY ... DESC` is
modelled as a stable descending sort on the summed volume, so among tied
maxima the first-appearing group comes first — the query has no secondary
sort key, so ties carry no lexicographic guarantee. -/

/-- One row of the `trades` table, restricted to the columns the marker
touches; `date` stands for `to_str(time, 'yyyy-MM-dd')`. -/
structure Row where
  symbol : String
  date : String
  symbol_period : String
  volume : Int
  front_contract : Bool
deriving Repr, DecidableEq

/-- Add one row's volume to its period's group, first-appearance order. -/
def addToGroup : List (String × Int) → String → Int → List (String × Int)
  | [], p, v => [(p, v)]
  | (q, w) :: rest, p, v =>
    if q = p then (q, w + v) :: rest else (q, w) :: addToGroup rest p v

/-- `GROUP BY symbol_period` of `sum(volume)` over the (symbol, day) slice. -/
def group_volumes (rows : List Row) (s d : String) : List (String × Int) :=
  rows.foldl
    (fun acc r =>
      if r.symbol = s ∧ r.date = d then addToGroup acc r.symbol_period r.volume else acc)
    []

/-- Stable descending insertion: the new group goes after every group whose
total is at least as large. -/
def insert_desc (p : String × Int) : List (String × Int) → List (String × Int)
  | [] => [p]
  | q :: qs => if p.2 ≤ q.2 then q :: insert_desc p qs else p :: q :: qs

/-- `ORDER BY total_volume DESC` as a stable sort of the groups. -/
def order_by_volume_desc (l : List (String × Int)) : List (String × Int) :=
  l.foldl (fun acc p => insert_desc p acc) []

/-- One step of a left scan for the first group attaining the maximum total:
a later group displaces the current best only by a strictly larger total. -/
def max_step (o : Option (String × Int)) (x : String × Int) : Option (String × Int) :=
  match o with
  | none => some x
  | some q => if q.2 < x.2 then some x else some q

/-- The first group (in appearance order) attaining the maximum total. -/
def first_max (l : List (String × Int)) : Option (String × Int) :=
  l.foldl max_step none

/-- `deduplicate_data` on the (symbol, day) slice, assuming the database does
not error: with fewer than two groups the call returns early and the table is
unchanged; otherwise every row of the slice gets `front_contract` reset and
the rows of `results[0][0]` get it set. -/
def deduplicate_data (rows : List Row) (s d : String) : List Row :=
  let results := order_by_volume_desc (group_volumes rows s d)
  if results.length ≤ 1 then rows
  else
    let keep := ((results.head?).map Prod.fst).getD ""
    rows.map (fun r =>
      if r.symbol = s ∧ r.date = d then
        { r with front_contract := r.symbol_period == keep }
      else r)

theorem insert_desc_head (p : String × Int) (l : List (String × Int)) :
    (insert_desc p l).head? =
      some (match l.head? with
            | none => p
            | some q => if q.2 < p.2 then p else q) := by
  cases l with
  | nil => rfl
  | cons q qs =>
    by_cases h : p.2 ≤ q.2
    · have h2 : ¬ q.2 < p.2 := Int.not_lt.mpr h
      simp [insert_desc, h, h2]
    · have h2 : q.2 < p.2 := Int.not_le.mp h
      simp [insert_desc, h, h2]

theorem order_head_eq_max_scan (l : List (String × Int)) :
    ∀ acc : List (String × Int),
      (l.foldl (fun a p => insert_desc p a) acc).head? = l.foldl max_step acc.head? := by
  induction l with
  | nil => intro acc; rfl
  | cons x xs ih =>
    intro acc
    rw [List.foldl_cons, List.foldl_cons, ih (insert_desc x acc), insert_desc_head]
    cases hh : acc.head? with
    | none => rfl
    | some q =>
      by_cases h : q.2 < x.2
      · simp [max_step, h]
      · simp [max_step, h]

theorem order_by_head_eq_first_max (l : List (String × Int)) :
    (order_by_volume_desc l).head? = first_max l := by
  rw [order_by_volume_desc, first_max, order_head_eq_max_scan l []]
  rfl

theorem max_step_spec (o : Option (String × Int)) (x : String × Int) :
    ∃ y, max_step o x = some y ∧ x.2 ≤ y.2 ∧
      (∀ q, o = some q → q.2 ≤ y.2) ∧ (y = x ∨ o = some y) := by
  cases o with
  | none => exact ⟨x, rfl, le_refl _, by simp, Or.inl rfl⟩
  | some q =>
    by_cases h : q.2 < x.2
    · refine ⟨x, by simp [max_step, h], le_refl _, ?_, Or.inl rfl⟩
      intro q' hq'
      obtain rfl : q = q' := by simpa using hq'
      exact le_of_lt h
    · refine ⟨q, by simp [max_step, h], Int.not_lt.mp h, ?_, Or.inr rfl⟩
      intro q' hq'
      obtain rfl : q = q' := by simpa using hq'
      exact le_refl _

theorem max_scan_spec (l : List (String × Int)) :
    ∀ (o : Option (String × Int)) (m : String × Int), l.foldl max_step o = some m →
      (∀ x ∈ l, x.2 ≤ m.2) ∧ (∀ q, o = some q → q.2 ≤ m.2) ∧ (m ∈ l ∨ o = some m) := by
  induction l with
  | nil =>
    intro o m hm
    rw [List.foldl_nil] at hm
    refine ⟨by simp, ?_, Or.inr hm⟩
    intro q hq
    rw [hq] at hm
    obtain rfl : q = m := by simpa using hm
    exact le_refl _
  | cons x xs ih =>
    intro o m hm
    rw [List.foldl_cons] at hm
    obtain ⟨hxs, hstep, hmem⟩ := ih (max_step o x) m hm
    obtain ⟨y, hy, hxy, hqy, hyx⟩ := max_step_spec o x
    have hym : y.2 ≤ m.2 := hstep y hy
    refine ⟨?_, ?_, ?_⟩
    · intro z hz
      rcases List.mem_cons.mp hz with rfl | hz'
      · exact le_trans hxy hym
      · exact hxs z hz'
    · intro q hq
      exact le_trans (hqy q hq) hym
    · rcases hmem with hmem | hmem
      · exact Or.inl (List.mem_cons_of_mem x hmem)
      · rw [hy] at hmem
        obtain rfl : y = m := by simpa using hmem
        rcases hyx with rfl | hyx
        · exact Or.inl (List.mem_cons_self _ _)
        · exact Or.inr hyx

/-- The maximality and membership facts about `first_max`. -/
theorem first_max_spec (l : List (String × Int)) (m : String × Int)
    (hm : first_max l = some m) :
    m ∈ l ∧ ∀ x ∈ l, x.2 ≤ m.2 := by
  obtain ⟨h1, _, h3⟩ := max_scan_spec l none m hm
  refine ⟨?_, h1⟩
  rcases h3 with h3 | h3
  · exact h3
  · simp at h3

/-- C4 counterexample: on a day where `Z5` and `U5` tie at volume 100 and the
`Z5` rows come first in the table, the marker sets `front_contract = true`
for `Z5` — not for the lexicographically smallest tied period `U5` as the
claim requires.  (The query orders by `total_volume DESC` with no secondary
key, so ties fall back to scan order, not lexicographic order.) -/
theorem front_contract_tie_counterexample :
    ("U5" : String) < "Z5" ∧
    deduplicate_data
        [⟨"ES", "D", "Z5", (100 : Int), false⟩, ⟨"ES", "D", "U5", 100, false⟩] "ES" "D"
      = [⟨"ES", "D", "Z5", 100, true⟩, ⟨"ES", "D", "U5", 100, false⟩] := by
  constructor
  · rw [String.lt_iff_toList_lt]
    decide
  · rfl

/-- C4 (amended): with at least two periods present, the marker sets
`front_contract = true` for exactly the period in the first row of the
volume-descending query result — under this model the first-appearing period
among those attaining the maximum summed volume, with no lexicographic
tie-break — and `false` for every other row of that (date, symbol) slice.
The chosen period is one of the slice's periods and its summed volume is
maximal. -/
theorem front_contract_marks_first_max (rows : List Row) (s d : String)
    (keep : String × Int)
    (h2 : 2 ≤ (order_by_volume_desc (group_volumes rows s d)).length)
    (hk : (order_by_volume_desc (group_volumes rows s d)).head? = some keep) :
    first_max (group_volumes rows s d) = some keep ∧
    keep ∈ group_volumes rows s d ∧
    (group_volumes rows s d).all (fun pv => decide (pv.2 ≤ keep.2)) = true ∧
    deduplicate_data rows s d = rows.map (fun r =>
      if r.symbol = s ∧ r.date = d then
        { r with front_contract := r.symbol_period == keep.1 }
      else r) := by
  have hfm : first_max (group_volumes rows s d) = some keep := by
    rw [← order_by_head_eq_first_max]
    exact hk
  obtain ⟨hmem, hmax⟩ := first_max_spec _ _ hfm
  refine ⟨hfm, hmem, ?_, ?_⟩
  · rw [List.all_eq_true]
    intro pv hpv
    exact decide_eq_true (hmax pv hpv)
  · rw [deduplicate_data]
    have hlen : ¬ (order_by_volume_desc (group_volumes rows s d)).length ≤ 1 := by
      omega
    rw [if_neg hlen, hk]
    rfl

/-- C4 witness: the spec's scenario 5 — periods `U5` (100), `Z5` (250),
`H6` (50) — where the marker picks `Z5`. -/
theorem front_contract_marks_first_max_witness :
    2 ≤ (order_by_volume_desc (group_volumes
          [⟨"ES", "D", "U5", (100 : Int), false⟩, ⟨"ES", "D", "Z5", 250, false⟩,
           ⟨"ES", "D", "H6", 50, false⟩] "ES" "D")).length ∧
    (order_by_volume_desc (group_volumes
          [⟨"ES", "D", "U5", (100 : Int), false⟩, ⟨"ES", "D", "Z5", 250, false⟩,
           ⟨"ES", "D", "H6", 50, false⟩] "ES" "D")).head? = some ("Z5", 250) ∧
    (first_max (group_volumes
          [⟨"ES", "D", "U5", (100 : Int), false⟩, ⟨"ES", "D", "Z5", 250, false⟩,
           ⟨"ES", "D", "H6", 50, false⟩] "ES" "D") = some ("Z5", 250) ∧
     ("Z5", (250 : Int)) ∈ group_volumes
          [⟨"ES", "D", "U5", (100 : Int), false⟩, ⟨"ES", "D", "Z5", 250, false⟩,
           ⟨"ES", "D", "H6", 50, false⟩] "ES" "D" ∧
     (group_volumes
          [⟨"ES", "D", "U5", (100 : Int), false⟩, ⟨"ES", "D", "Z5", 250, false⟩,
           ⟨"ES", "D", "H6", 50, false⟩] "ES" "D").all
        (fun pv => decide (pv.2 ≤ ("Z5", (250 : Int)).2)) = true ∧
     deduplicate_data
          [⟨"ES", "D", "U5", (100 : Int), false⟩, ⟨"ES", "D", "Z5", 250, false⟩,
           ⟨"ES", "D", "H6", 50, false⟩] "ES" "D"
       = ([⟨"ES", "D", "U5", (100 : Int), false⟩, ⟨"ES", "D", "Z5", 250, false⟩,
           ⟨"ES", "D", "H6", 50, false⟩] : List Row).map (fun r =>
            if r.symbol = "ES" ∧ r.date = "D" then
              { r with front_contract := r.symbol_period == ("Z5", (250 : Int)).1 }
            else r)) :=
  ⟨by decide, by decide,
   front_contract_marks_first_max
     [⟨"ES", "D", "U5", (100 : Int), false⟩, ⟨"ES", "D", "Z5", 250, false⟩,
      ⟨"ES", "D", "H6", 50, false⟩] "ES" "D" ("Z5", 250) (by decide) (by decide)⟩

/-! ### The marker's transaction behaviour (`main`, lines 229–243)

One database connection and cursor serve the whole run.  The day loop calls
`deduplicate_data` for every symbol and commits once *after* the whole
symbol loop (`conn.commit()` at line 238).  Inside `deduplicate_data`, a
`psycopg2.Error` is caught and answered with `cursor.connection.rollback()`
(line 150) — a connection-wide rollback that discards *every* uncommitted
change of the transaction, not just the current symbol's. -/

/-- The database state as the marker sees it: the durably committed table and
the working (uncommitted) view of the open transaction. -/
structure TxState where
  committed : List Row
  working : List Row
deriving Repr, DecidableEq

/-- One `deduplicate_data(cursor, s, d)` call: on a database error
(environment fact `failOn s`), `connection.rollback()` resets the working
view to the last commit; otherwise the mutation applies to the working view.
Either way the loop proceeds to the next symbol. -/
def process_symbol (failOn : String → Bool) (d : String) (st : TxState) (s : String) :
    TxState :=
  if failOn s then { st with working := st.committed }
  else { st with working := deduplicate_data st.working s d }

/-- One day of the marker's `main` loop: all symbols, then `conn.commit()`. -/
def process_day (failOn : String → Bool) (d : String) (symbols : List String)
    (st : TxState) : TxState :=
  let st1 := symbols.foldl (process_symbol failOn d) st
  { committed := st1.working, working := st1.working }

theorem process_symbol_committed (failOn : String → Bool) (d : String)
    (st : TxState) (s : String) :
    (process_symbol failOn d st s).committed = st.committed := by
  rw [process_symbol]
  split <;> rfl

theorem foldl_process_symbol_committed (failOn : String → Bool) (d : String)
    (l : List String) : ∀ st : TxState,
    (l.foldl (process_symbol failOn d) st).committed = st.committed := by
  induction l with
  | nil => intro st; rfl
  | cons s rest ih =>
    intro st
    rw [List.foldl_cons, ih, process_symbol_committed]

/-- C5 counterexample: symbols `AA` then `BB` on the same (uncommitted) day,
with the database erroring on `BB`.  `AA`'s marking genuinely changed the
working view, but `BB`'s rollback resets the working view to the last commit,
wiping `AA`'s mutation too — the claim says mutations of other symbols on the
same uncommitted day are unaffected. -/
theorem marker_rollback_counterexample :
    (process_symbol (fun s => s == "BB") "D"
        ⟨[⟨"AA", "D", "U5", (100 : Int), false⟩, ⟨"AA", "D", "Z5", 50, false⟩,
          ⟨"BB", "D", "U5", 10, false⟩, ⟨"BB", "D", "Z5", 20, false⟩],
         [⟨"AA", "D", "U5", (100 : Int), false⟩, ⟨"AA", "D", "Z5", 50, false⟩,
          ⟨"BB", "D", "U5", 10, false⟩, ⟨"BB", "D", "Z5", 20, false⟩]⟩ "AA").working
      ≠ [⟨"AA", "D", "U5", (100 : Int), false⟩, ⟨"AA", "D", "Z5", 50, false⟩,
         ⟨"BB", "D", "U5", 10, false⟩, ⟨"BB", "D", "Z5", 20, false⟩] ∧
    (List.foldl (process_symbol (fun s => s == "BB") "D")
        ⟨[⟨"AA", "D", "U5", (100 : Int), false⟩, ⟨"AA", "D", "Z5", 50, false⟩,
          ⟨"BB", "D", "U5", 10, false⟩, ⟨"BB", "D", "Z5", 20, false⟩],
         [⟨"AA", "D", "U5", (100 : Int), false⟩, ⟨"AA", "D", "Z5", 50, false⟩,
          ⟨"BB", "D", "U5", 10, false⟩, ⟨"BB", "D", "Z5", 20, false⟩]⟩
        ["AA", "BB"]).working
      = [⟨"AA", "D", "U5", (100 : Int), false⟩, ⟨"AA", "D", "Z5", 50, false⟩,
         ⟨"BB", "D", "U5", 10, false⟩, ⟨"BB", "D", "Z5", 20, false⟩] := by
  constructor
  · decide
  · rfl

/-- C5 (amended): a database error on (D, S) rolls back *all* uncommitted
mutations of the transaction — including those already applied for other
symbols on the same uncommitted day — and processing continues with the
symbols after S from a working view equal to the last commit. -/
theorem marker_failure_rolls_back_whole_transaction (failOn : String → Bool)
    (d : String) (pre post : List String) (s : String) (st : TxState)
    (hs : failOn s = true) :
    List.foldl (process_symbol failOn d) st (pre ++ s :: post)
      = List.foldl (process_symbol failOn d) ⟨st.committed, st.committed⟩ post := by
  rw [List.foldl_append, List.foldl_cons]
  have hroll : process_symbol failOn d (List.foldl (process_symbol failOn d) st pre) s
      = ⟨st.committed, st.committed⟩ := by
    rw [process_symbol, hs, if_pos rfl]
    rw [foldl_process_symbol_committed]
  rw [hroll]

/-- C5 witness: the counterexample scenario run through the amended theorem:
after `AA` succeeds and `BB` errors, the transaction is back at the last
commit. -/
theorem marker_failure_rolls_back_whole_transaction_witness :
    (fun s => s == "BB") "BB" = true ∧
    List.foldl (process_symbol (fun s => s == "BB") "D")
        ⟨[⟨"AA", "D", "U5", (100 : Int), false⟩, ⟨"AA", "D", "Z5", 50, false⟩],
         [⟨"AA", "D", "U5", (100 : Int), false⟩, ⟨"AA", "D", "Z5", 50, false⟩]⟩
        (["AA"] ++ "BB" :: [])
      = List.foldl (process_symbol (fun s => s == "BB") "D")
          ⟨(⟨[⟨"AA", "D", "U5", (100 : Int), false⟩, ⟨"AA", "D", "Z5", 50, false⟩],
             [⟨"AA", "D", "U5", (100 : Int), false⟩, ⟨"AA", "D", "Z5", 50, false⟩]⟩
              : TxState).committed,
            (⟨[⟨"AA", "D", "U5", (100 : Int), false⟩, ⟨"AA", "D", "Z5", 50, false⟩],
              [⟨"AA", "D", "U5", (100 : Int), false⟩, ⟨"AA", "D", "Z5", 50, false⟩]⟩
              : TxState).committed⟩ [] :=
  ⟨by decide,
   marker_failure_rolls_back_whole_transaction (fun s => s == "BB") "D" ["AA"] [] "BB"
     ⟨[⟨"AA", "D", "U5", (100 : Int), false⟩, ⟨"AA", "D", "Z5", 50, false⟩],
      [⟨"AA", "D", "U5", (100 : Int), false⟩, ⟨"AA", "D", "Z5", 50, false⟩]⟩ rfl⟩

end ContractMerger
